import Mathlib

/- Formal model of the DevSync backup and restore tool (github_project_tool.py).

The host filesystem is modelled as an association list from relative path
names to file contents; external command execution is modelled by an
ExecOutcome value describing what the spawned process did (or that spawning
faulted).  Each collector, the archive packager and the restorer are
translated from the Python source into pure Lean functions over these
models. -/

namespace DevSync

/-- Result triple of run_command: (succeeded, stdout, stderr). -/
structure CmdResult where
  succeeded : Bool
  stdout : String
  stderr : String
deriving Repr, DecidableEq

/-- What happened when the runtime tried to execute a command: either the
spawn faulted with an exception message, or a process ran and produced an
exit code together with its captured output streams. -/
inductive ExecOutcome where
  | fault (err : String)
  | ran (exitCode : Int) (out : String) (err : String)
deriving Repr, DecidableEq

/-- Model of DevSync.run_command: subprocess.run wrapped in try/except; an
exception yields (False, "", str(e)); a completed process yields
(returncode == 0, stdout, stderr). -/
def run_command : ExecOutcome → CmdResult
  | .fault e => ⟨false, "", e⟩
  | .ran code out err => ⟨code == 0, out, err⟩

/-- A directory tree (or flat directory) as an association list from
relative path name to file content. -/
abbrev FS := List (String × String)

/-- Read the file stored at path p (first matching entry). -/
def FS.read : FS → String → Option String
  | [], _ => none
  | e :: rest, p => if e.1 = p then some e.2 else FS.read rest p

/-- Write content c at path p, overwriting an existing entry in place or
appending a fresh one. -/
def FS.write : FS → String → String → FS
  | [], p, c => [(p, c)]
  | e :: rest, p, c => if e.1 = p then (p, c) :: rest else e :: FS.write rest p c

/-- Extract a list of archive entries into a filesystem, writing each entry
in order (zipfile.extractall semantics: later entries overwrite earlier
files at the same path). -/
def extract (entries : List (String × String)) (fs : FS) : FS :=
  entries.foldl (fun r e => FS.write r e.1 e.2) fs

/-- Parse the saved extensions.txt content the way restore_from_package
does: strip the whole text, split on newlines, and keep the stripped form
of each non-blank line as an install command. -/
def extension_cmds (content : String) : List String :=
  ((content.trim.splitOn "\n").filter (fun e => e.trim != "")).map
    (fun e => "code --install-extension " ++ e.trim)

/-- Result of restore_from_package: the returned boolean, the Backup Root
afterwards, and the install commands attempted with each one's result. -/
structure RestoreResult where
  ok : Bool
  fs : FS
  installs : List (String × CmdResult)
deriving Repr, DecidableEq

/-- Model of DevSync.restore_from_package.  The archive argument is the
content found at the given package path (none when the path does not
exist).  env gives the execution outcome of each shell command. -/
def restore_from_package (archive : Option (List (String × String)))
    (backupRoot : FS) (env : String → ExecOutcome) : RestoreResult :=
  match archive with
  | none => ⟨false, backupRoot, []⟩
  | some entries =>
    let fs' := extract entries backupRoot
    let installs :=
      match FS.read fs' "vscode/extensions.txt" with
      | none => []
      | some content =>
          (extension_cmds content).map (fun c => (c, run_command (env c)))
    ⟨true, fs', installs⟩

/-- C7: run_command never propagates a fault: a spawn fault yields
succeeded = false with the error text as stderr (and empty stdout), and a
normally spawned command yields succeeded exactly when the exit code is
zero, with the captured streams. -/
theorem C7_run_command_total (o : ExecOutcome) :
    (∀ e, o = ExecOutcome.fault e →
        run_command o = ⟨false, "", e⟩) ∧
    (∀ code out err, o = ExecOutcome.ran code out err →
        (run_command o).succeeded = (code == 0) ∧
        (run_command o).stdout = out ∧ (run_command o).stderr = err) := by
  constructor
  · intro e he; subst he; rfl
  · intro code out err he; subst he; exact ⟨rfl, rfl, rfl⟩

/-- Witness for C7 at concrete outcomes: a missing binary (fault) returns
failure carrying the error text. -/
theorem C7_run_command_total_witness :
    run_command (ExecOutcome.fault "No such file or directory") =
      ⟨false, "", "No such file or directory"⟩ :=
  (C7_run_command_total (ExecOutcome.fault "No such file or directory")).1
    "No such file or directory" rfl

/-- C2: when the archive path does not exist, restore_from_package returns
false, runs no install command, and leaves every file of the Backup Root
unchanged. -/
theorem C2_restore_missing_archive (backupRoot : FS) (env : String → ExecOutcome) :
    (restore_from_package none backupRoot env).ok = false ∧
    (restore_from_package none backupRoot env).installs = [] ∧
    ∀ p, FS.read (restore_from_package none backupRoot env).fs p =
      FS.read backupRoot p := by
  exact ⟨rfl, rfl, fun p => rfl⟩

/-- C8: for an existing archive, restore_from_package returns true whatever
the outcomes of the replayed install commands; the extracted filesystem and
the list of attempted install commands are the same under any two outcome
environments, so no install failure blocks a later install or changes the
return value. -/
theorem C8_restore_replay_independent (entries : List (String × String))
    (backupRoot : FS) (env env' : String → ExecOutcome) :
    (restore_from_package (some entries) backupRoot env).ok = true ∧
    (restore_from_package (some entries) backupRoot env).fs =
      (restore_from_package (some entries) backupRoot env').fs ∧
    (restore_from_package (some entries) backupRoot env).installs.map Prod.fst =
      (restore_from_package (some entries) backupRoot env').installs.map Prod.fst := by
  refine ⟨rfl, rfl, ?_⟩
  simp only [restore_from_package]
  cases FS.read (extract entries backupRoot) "vscode/extensions.txt" <;>
    simp [List.map_map, Function.comp]

theorem FS.read_write_self (fs : FS) (p c : String) :
    FS.read (FS.write fs p c) p = some c := by
  induction fs with
  | nil => simp [FS.write, FS.read]
  | cons e rest ih =>
    by_cases h : e.1 = p
    · simp [FS.write, h, FS.read]
    · simp [FS.write, h, FS.read, ih]

theorem FS.read_write_ne (fs : FS) (p c q : String) (h : q ≠ p) :
    FS.read (FS.write fs p c) q = FS.read fs q := by
  have h' : p ≠ q := fun hh => h hh.symm
  induction fs with
  | nil => simp [FS.write, FS.read, h']
  | cons e rest ih =>
    by_cases he : e.1 = p
    · have hq : ¬ e.1 = q := by rw [he]; exact h'
      simp [FS.write, he, FS.read, h', hq]
    · by_cases hq : e.1 = q <;> simp [FS.write, FS.read, he, hq, h, ih]

theorem FS.read_append (a b : FS) (p : String) :
    FS.read (a ++ b) p =
      (match FS.read a p with
       | some c => some c
       | none => FS.read b p) := by
  induction a with
  | nil => simp [FS.read]
  | cons e rest ih =>
    by_cases h : e.1 = p <;> simp [FS.read, h, ih]

theorem FS.read_append_none (a b : FS) (p : String) (h : FS.read a p = none) :
    FS.read (a ++ b) p = FS.read b p := by
  rw [FS.read_append, h]

theorem FS.mem_of_read (fs : FS) (p c : String) (h : FS.read fs p = some c) :
    (p, c) ∈ fs := by
  induction fs with
  | nil => simp [FS.read] at h
  | cons e rest ih =>
    obtain ⟨a, b⟩ := e
    by_cases he : a = p
    · subst he
      simp [FS.read] at h
      subst h
      exact List.mem_cons_self _ _
    · simp [FS.read, he] at h
      exact List.mem_cons_of_mem _ (ih h)

theorem extract_read_not_mem (entries : List (String × String)) (fs : FS)
    (p : String) (h : p ∉ entries.map Prod.fst) :
    FS.read (extract entries fs) p = FS.read fs p := by
  induction entries generalizing fs with
  | nil => rfl
  | cons e rest ih =>
    simp only [List.map_cons, List.mem_cons] at h
    push_neg at h
    simpa [extract, FS.read_write_ne fs e.1 e.2 p h.1] using
      (by simpa [extract] using ih (FS.write fs e.1 e.2) h.2 :
        FS.read (extract rest (FS.write fs e.1 e.2)) p = FS.read (FS.write fs e.1 e.2) p)

theorem extract_read_mem_nodup (entries : List (String × String)) (fs : FS)
    (p c : String) (hnd : (entries.map Prod.fst).Nodup)
    (hmem : (p, c) ∈ entries) :
    FS.read (extract entries fs) p = some c := by
  induction entries generalizing fs with
  | nil => simp at hmem
  | cons e rest ih =>
    simp only [List.map_cons, List.nodup_cons] at hnd
    rcases List.mem_cons.mp hmem with heq | hrest
    · subst heq
      have hnot : p ∉ rest.map Prod.fst := hnd.1
      calc FS.read (extract ((p, c) :: rest) fs) p
          = FS.read (extract rest (FS.write fs p c)) p := rfl
        _ = FS.read (FS.write fs p c) p := extract_read_not_mem rest _ p hnot
        _ = some c := FS.read_write_self fs p c
    · exact ih (FS.write fs e.1 e.2) hnd.2 hrest

/-- Tool version fixed in DevSync.__init__. -/
def devsync_version : String := "1.2.0"

/-- Environment facts sampled while building the metadata record: current
timestamp and the platform module answers. -/
structure MetaInput where
  created_at : String
  system : String
  machine : String
  python_version : String
deriving Repr, DecidableEq

/-- The metadata dictionary built inside create_sync_package, in insertion
order. -/
def metadataFields (m : MetaInput) : List (String × String) :=
  [("created_at", m.created_at), ("system", m.system), ("machine", m.machine),
   ("python_version", m.python_version), ("devsync_version", devsync_version),
   ("creator", "xxwfufu")]

/-- Serialize one string field of a JSON object. -/
def jsonField (f : String × String) : String :=
  "\"" ++ f.1 ++ "\": \"" ++ f.2 ++ "\""

/-- Deterministic JSON-object serialization of an ordered field list
(json.dumps with indent 2). -/
def jsonObj (fields : List (String × String)) : String :=
  "\x7b\n" ++ String.intercalate ",\n" (fields.map (fun f => "  " ++ jsonField f))
    ++ "\n\x7d"

/-- Deterministic JSON serialization of a list of strings. -/
def jsonList (xs : List String) : String :=
  "[" ++ String.intercalate ", " (xs.map (fun s => "\"" ++ s ++ "\"")) ++ "]"

/-- Model of DevSync.create_sync_package: walk the Backup Root, write every
file into the archive at its path relative to the Backup Root, then append
the metadata.json entry.  The result is the archive entry list in write
order. -/
def create_sync_package (backupRoot : FS) (m : MetaInput) :
    List (String × String) :=
  backupRoot ++ [("metadata.json", jsonObj (metadataFields m))]

/-- C3: packaging the Backup Root and restoring the produced archive into
an empty Backup Root reproduces the content of every original file at the
same relative path (the metadata entry aside). -/
theorem C3_roundtrip (root : FS) (m : MetaInput) (env : String → ExecOutcome)
    (hnd : (root.map Prod.fst).Nodup) (p c : String)
    (hp : FS.read root p = some c) (hmeta : p ≠ "metadata.json") :
    FS.read (restore_from_package (some (create_sync_package root m)) [] env).fs p
      = some c := by
  have hfs : (restore_from_package (some (create_sync_package root m)) [] env).fs
      = FS.write (extract root []) "metadata.json" (jsonObj (metadataFields m)) := by
    simp [restore_from_package, create_sync_package, extract, List.foldl_append]
  rw [hfs, FS.read_write_ne _ _ _ _ hmeta]
  exact extract_read_mem_nodup root [] p c hnd (FS.mem_of_read root p c hp)

/-- Witness for C3 at a concrete two-file Backup Root. -/
theorem C3_roundtrip_witness :
    FS.read (restore_from_package
        (some (create_sync_package
          [("ssh/config", "Host example"), ("git/user_info.json", "identity")]
          ⟨"2024-01-01T00:00:00", "Linux", "x86_64", "3.11.6"⟩))
        [] (fun _ => ExecOutcome.fault "no shell")).fs "ssh/config"
      = some "Host example" :=
  C3_roundtrip _ _ _ (by decide) _ _ (by decide) (by decide)

/-- C9: packaging twice with no state change is deterministic: the two
archives agree on every non-metadata entry, and the whole archive is a
function of the Backup Root and the sampled metadata inputs, so two runs
differ at most in the metadata timestamp. -/
theorem C9_package_idempotent (root : FS) (m1 m2 : MetaInput)
    (hs : m1.system = m2.system) (hm : m1.machine = m2.machine)
    (hpv : m1.python_version = m2.python_version) :
    (∀ p, p ≠ "metadata.json" →
      FS.read (create_sync_package root m1) p
        = FS.read (create_sync_package root m2) p) ∧
    (m1.created_at = m2.created_at →
      create_sync_package root m1 = create_sync_package root m2) := by
  constructor
  · intro p hp
    rw [create_sync_package, create_sync_package, FS.read_append, FS.read_append]
    cases FS.read root p with
    | some c => rfl
    | none => simp [FS.read, Ne.symm hp]
  · intro hc
    cases m1
    cases m2
    simp_all

/-- Witness for C9 at a concrete Backup Root and two metadata samples that
differ only in the timestamp. -/
theorem C9_package_idempotent_witness :
    FS.read (create_sync_package [("packages/pip_packages.json", "[]")]
        ⟨"2024-01-01T00:00:00", "Linux", "x86_64", "3.11.6"⟩)
        "packages/pip_packages.json"
      = FS.read (create_sync_package [("packages/pip_packages.json", "[]")]
        ⟨"2024-01-02T09:30:00", "Linux", "x86_64", "3.11.6"⟩)
        "packages/pip_packages.json" :=
  (C9_package_idempotent [("packages/pip_packages.json", "[]")]
      ⟨"2024-01-01T00:00:00", "Linux", "x86_64", "3.11.6"⟩
      ⟨"2024-01-02T09:30:00", "Linux", "x86_64", "3.11.6"⟩
      rfl rfl rfl).1
    "packages/pip_packages.json" (by decide)

/-- C5 counterexample: the metadata record written into the archive has a
sixth field, python_version, which is not among the five fields the claim
enumerates. -/
theorem C5_metadata_fields_counterexample :
    "python_version" ∈ (metadataFields
        ⟨"2024-01-01T00:00:00", "Linux", "x86_64", "3.11.6"⟩).map Prod.fst ∧
    "python_version" ∉
      ["created_at", "system", "machine", "devsync_version", "creator"] := by
  decide

/-- C5 amended: the metadata entry written as metadata.json consists of
exactly the fields created_at, system, machine, python_version,
devsync_version and creator, in that order. -/
theorem C5_metadata_fields_amended (m : MetaInput) :
    (metadataFields m).map Prod.fst =
      ["created_at", "system", "machine", "python_version",
       "devsync_version", "creator"] ∧
    FS.read (create_sync_package [] m) "metadata.json"
      = some (jsonObj (metadataFields m)) :=
  ⟨rfl, rfl⟩

theorem map_fst_filter (p : String → Bool) (l : List (String × String)) :
    (l.filter (fun e => p e.1)).map Prod.fst = (l.map Prod.fst).filter p := by
  induction l with
  | nil => rfl
  | cons e rest ih => by_cases h : p e.1 <;> simp [h, ih]

/-- Glob test used for public keys: the name matches *.pub, that is, its
character sequence ends with the four characters of .pub. -/
def ends_with_pub (n : String) : Bool :=
  List.isSuffixOf ".pub".data n.data

/-- Allow-list of non-key SSH files copied by name. -/
def ssh_safe_files : List String := ["config", "known_hosts"]

/-- Model of DevSync.backup_ssh_config.  The argument is the content of the
host .ssh directory (none when it does not exist); the result is the
returned boolean and the ssh subtree written under the Backup Root.  The
collector copies the allow-listed files that exist, then enumerates the
files matching *.pub, writing their names into a manifest and copying each
of them. -/
def backup_ssh_config (sshDir : Option (List (String × String))) :
    Bool × FS :=
  match sshDir with
  | none => (false, [])
  | some files =>
    let copiedSafe : FS := ssh_safe_files.filterMap
      (fun nm => (FS.read files nm).map (fun c => (nm, c)))
    let pubs : FS := files.filter (fun e => ends_with_pub e.1)
    let manifest : FS :=
      if pubs.isEmpty then []
      else [("public_keys_list.txt",
             String.join (pubs.map (fun e => e.1 ++ "\n")))]
    (true, copiedSafe ++ manifest ++ pubs)

/-- C1: the SSH collector copies only files named config or known_hosts or
ending in .pub; any other source file name (private keys such as id_rsa
included) never appears in the backup subtree; and the manifest is exactly
the list of .pub-suffixed source names, present exactly when at least one
public key exists. -/
theorem C1_ssh_allowlist (files : List (String × String)) :
    (∀ n c, FS.read (backup_ssh_config (some files)).2 n = some c →
        n = "config" ∨ n = "known_hosts" ∨ ends_with_pub n = true
          ∨ n = "public_keys_list.txt") ∧
    (∀ n, ¬(n = "config" ∨ n = "known_hosts" ∨ ends_with_pub n = true) →
        n ≠ "public_keys_list.txt" →
        FS.read (backup_ssh_config (some files)).2 n = none) ∧
    (FS.read (backup_ssh_config (some files)).2 "public_keys_list.txt" =
      if (files.filter (fun e => ends_with_pub e.1)).isEmpty then none
      else some (String.join (((files.map Prod.fst).filter
        ends_with_pub).map (fun n => n ++ "\n")))) := by
  have hmain : ∀ n c, FS.read (backup_ssh_config (some files)).2 n = some c →
      n = "config" ∨ n = "known_hosts" ∨ ends_with_pub n = true
        ∨ n = "public_keys_list.txt" := by
    intro n c h
    have hmem := FS.mem_of_read _ _ _ h
    simp only [backup_ssh_config, List.mem_append] at hmem
    rcases hmem with (hsafe | hman) | hpub
    · rcases List.mem_filterMap.mp hsafe with ⟨nm, hnm, hf⟩
      rcases Option.map_eq_some'.mp hf with ⟨c', _, hc'⟩
      have : nm = n := congrArg Prod.fst hc'
      subst this
      simp only [ssh_safe_files, List.mem_cons, List.mem_singleton] at hnm
      rcases hnm with h1 | h1 | h1
      · exact Or.inl h1
      · exact Or.inr (Or.inl h1)
      · simp at h1
    · by_cases hemp : (files.filter (fun e => ends_with_pub e.1)).isEmpty
      · simp [hemp] at hman
      · simp [hemp] at hman
        exact Or.inr (Or.inr (Or.inr hman.1))
    · have hp := List.of_mem_filter hpub
      exact Or.inr (Or.inr (Or.inl hp))
  refine ⟨hmain, ?_, ?_⟩
  · intro n hnot hman
    cases h : FS.read (backup_ssh_config (some files)).2 n with
    | none => rfl
    | some c =>
      rcases hmain n c h with h1 | h1 | h1 | h1
      · exact absurd (Or.inl h1) hnot
      · exact absurd (Or.inr (Or.inl h1)) hnot
      · exact absurd (Or.inr (Or.inr h1)) hnot
      · exact absurd h1 hman
  · have hsafe_none :
        FS.read (ssh_safe_files.filterMap
          (fun nm => (FS.read files nm).map (fun c => (nm, c))))
          "public_keys_list.txt" = none := by
      cases h1 : FS.read files "config" <;>
        cases h2 : FS.read files "known_hosts" <;>
          simp [ssh_safe_files, h1, h2, FS.read]
    have hpub_none :
        FS.read (files.filter (fun e => ends_with_pub e.1))
          "public_keys_list.txt" = none := by
      cases h : FS.read (files.filter (fun e => ends_with_pub e.1))
          "public_keys_list.txt" with
      | none => rfl
      | some c =>
        have hm := FS.mem_of_read _ _ _ h
        have hp0 := List.of_mem_filter hm
        exact absurd
          (show ends_with_pub "public_keys_list.txt" = true from hp0)
          (by decide)
    simp only [backup_ssh_config]
    rw [List.append_assoc, FS.read_append_none _ _ _ hsafe_none]
    by_cases hemp : (files.filter (fun e => ends_with_pub e.1)).isEmpty
    · simp only [hemp, if_true, List.nil_append]
      rw [hpub_none]
    · rw [← map_fst_filter ends_with_pub files]
      simp only [hemp, FS.read, List.map_map, if_false, Bool.false_eq_true,
        List.cons_append, List.nil_append]
      rfl

/-- Witness for C1: with a source directory holding id_rsa, id_rsa.pub and
config, the private key id_rsa does not appear in the backup subtree. -/
theorem C1_ssh_allowlist_witness :
    FS.read (backup_ssh_config (some
      [("id_rsa", "SECRET"), ("id_rsa.pub", "PUBKEY"), ("config", "Host h")])).2
      "id_rsa" = none :=
  (C1_ssh_allowlist
      [("id_rsa", "SECRET"), ("id_rsa.pub", "PUBKEY"), ("config", "Host h")]).2.1
    "id_rsa" (by decide) (by decide)

/-- Shell command querying the global git user name. -/
def git_name_cmd : String := "git config --global user.name"

/-- Shell command querying the global git user email. -/
def git_email_cmd : String := "git config --global user.email"

/-- Model of DevSync.backup_git_config: copy .gitconfig and
.gitignore_global when present, then query name and email and write
user_info.json only when both queries succeed. -/
def backup_git_config (home : FS) (env : String → ExecOutcome) : Bool × FS :=
  let copies : FS :=
    (match FS.read home ".gitconfig" with
     | some c => [(".gitconfig", c)]
     | none => []) ++
    (match FS.read home ".gitignore_global" with
     | some c => [(".gitignore_global", c)]
     | none => [])
  let r1 := run_command (env git_name_cmd)
  let r2 := run_command (env git_email_cmd)
  if r1.succeeded && r2.succeeded then
    (true, FS.write copies "user_info.json"
      (jsonObj [("name", r1.stdout.trim), ("email", r2.stdout.trim)]))
  else
    (true, copies)

/-- C6: the git collector writes user_info.json if and only if both the
user-name query and the user-email query succeed, in which case it holds
the two trimmed answers; under any partial success no identity file is
produced. -/
theorem C6_git_identity_all_or_nothing (home : FS) (env : String → ExecOutcome) :
    FS.read (backup_git_config home env).2 "user_info.json" =
      (if (run_command (env git_name_cmd)).succeeded
          && (run_command (env git_email_cmd)).succeeded
       then some (jsonObj
          [("name", (run_command (env git_name_cmd)).stdout.trim),
           ("email", (run_command (env git_email_cmd)).stdout.trim)])
       else none) := by
  by_cases hb : (run_command (env git_name_cmd)).succeeded
      && (run_command (env git_email_cmd)).succeeded
  · simp only [backup_git_config, hb, if_true]
    exact FS.read_write_self _ _ _
  · simp only [backup_git_config, hb, if_false]
    cases h1 : FS.read home ".gitconfig" <;>
      cases h2 : FS.read home ".gitignore_global" <;>
        simp [h1, h2, FS.read]

/-- Shell command of the npm ecosystem query. -/
def npm_cmd : String := "npm list -g --depth=0 --json"

/-- Shell command of the pip ecosystem query. -/
def pip_cmd : String := "pip list --format=json"

/-- Shell command of the cargo ecosystem query. -/
def cargo_cmd : String := "cargo install --list"

/-- Shell command of the Homebrew formulae query. -/
def brew_formula_cmd : String := "brew list --formula -1"

/-- Shell command of the Homebrew casks query. -/
def brew_cask_cmd : String := "brew list --cask -1"

/-- Environment of the package-manager collector: the execution outcome of
each shell command together with the behavior of json.loads on the npm and
pip outputs.  parseNpmDeps returns the keys of the dependencies object of
the parsed npm output (none when parsing raises); parsePipJson returns the
re-serialized parsed pip output (none when parsing raises). -/
structure PkgEnv where
  run : String → ExecOutcome
  parseNpmDeps : String → Option (List String)
  parsePipJson : String → Option String

/-- Model of DevSync.backup_package_managers: query npm, pip and cargo in
turn, writing each ecosystem inventory file only when that query succeeds
(and, for npm and pip, its output parses); on darwin additionally query
brew formulae and, only inside the formulae success branch, brew casks.
Always returns true. -/
def backup_package_managers (sys : String) (env : PkgEnv) : Bool × FS :=
  let fs0 : FS := []
  let r1 := run_command (env.run npm_cmd)
  let fs1 :=
    if r1.succeeded then
      match env.parseNpmDeps r1.stdout with
      | some pkgs => FS.write fs0 "npm_global.json" (jsonList pkgs)
      | none => fs0
    else fs0
  let r2 := run_command (env.run pip_cmd)
  let fs2 :=
    if r2.succeeded then
      match env.parsePipJson r2.stdout with
      | some content => FS.write fs1 "pip_packages.json" content
      | none => fs1
    else fs1
  let r3 := run_command (env.run cargo_cmd)
  let fs3 :=
    if r3.succeeded then FS.write fs2 "cargo_packages.txt" r3.stdout else fs2
  let fs4 :=
    if sys = "darwin" then
      let r4 := run_command (env.run brew_formula_cmd)
      if r4.succeeded then
        let fs4a := FS.write fs3 "brew_formulae.txt" r4.stdout
        let r5 := run_command (env.run brew_cask_cmd)
        if r5.succeeded then FS.write fs4a "brew_casks.txt" r5.stdout else fs4a
      else fs3
    else fs3
  (true, fs4)

/-- Package environment in which every query succeeds and both parses
succeed. -/
def pkgEnvAllOk : PkgEnv where
  run := fun _ => ExecOutcome.ran 0 "out\n" ""
  parseNpmDeps := fun _ => some ["typescript"]
  parsePipJson := fun _ => some "parsed"

/-- The same environment except that the brew formulae query exits with
code 1. -/
def pkgEnvFormulaeFail : PkgEnv where
  run := fun c =>
    if c = brew_formula_cmd then ExecOutcome.ran 1 "" "boom"
    else ExecOutcome.ran 0 "out\n" ""
  parseNpmDeps := fun _ => some ["typescript"]
  parsePipJson := fun _ => some "parsed"

/-- C4 counterexample: on darwin, with the cask query succeeding, a failure
of the brew formulae query alone removes the cask inventory file (the cask
query is nested inside the formulae success branch), so the five ecosystem
queries are not all handled independently. -/
theorem C4_cask_not_independent_counterexample :
    (run_command (pkgEnvFormulaeFail.run brew_cask_cmd)).succeeded = true ∧
    FS.read (backup_package_managers "darwin" pkgEnvFormulaeFail).2
      "brew_casks.txt" = none ∧
    FS.read (backup_package_managers "darwin" pkgEnvAllOk).2
      "brew_casks.txt" = some "out\n" := by
  decide

/-- C4 amended: each of the npm, pip and cargo inventory files depends only
on that ecosystem's own query (and parse) outcome; the brew formulae file
depends only on the formulae query (on darwin); the brew casks file is the
exception: it is written exactly when, on darwin, the formulae query and
the cask query both succeed.  The collector always reports success. -/
theorem C4_pkg_independence_amended (sys : String) (env : PkgEnv) :
    (backup_package_managers sys env).1 = true ∧
    FS.read (backup_package_managers sys env).2 "npm_global.json" =
      (if (run_command (env.run npm_cmd)).succeeded then
         (env.parseNpmDeps (run_command (env.run npm_cmd)).stdout).map jsonList
       else none) ∧
    FS.read (backup_package_managers sys env).2 "pip_packages.json" =
      (if (run_command (env.run pip_cmd)).succeeded then
         env.parsePipJson (run_command (env.run pip_cmd)).stdout
       else none) ∧
    FS.read (backup_package_managers sys env).2 "cargo_packages.txt" =
      (if (run_command (env.run cargo_cmd)).succeeded then
         some (run_command (env.run cargo_cmd)).stdout
       else none) ∧
    FS.read (backup_package_managers sys env).2 "brew_formulae.txt" =
      (if sys = "darwin" then
         (if (run_command (env.run brew_formula_cmd)).succeeded then
            some (run_command (env.run brew_formula_cmd)).stdout
          else none)
       else none) ∧
    FS.read (backup_package_managers sys env).2 "brew_casks.txt" =
      (if sys = "darwin" then
         (if (run_command (env.run brew_formula_cmd)).succeeded then
            (if (run_command (env.run brew_cask_cmd)).succeeded then
               some (run_command (env.run brew_cask_cmd)).stdout
             else none)
          else none)
       else none) := by
  simp only [backup_package_managers]
  cases h1 : (run_command (env.run npm_cmd)).succeeded <;>
    cases hn : env.parseNpmDeps (run_command (env.run npm_cmd)).stdout <;>
      cases h2 : (run_command (env.run pip_cmd)).succeeded <;>
        cases hp : env.parsePipJson (run_command (env.run pip_cmd)).stdout <;>
          cases h3 : (run_command (env.run cargo_cmd)).succeeded <;>
            by_cases hd : sys = "darwin" <;>
              cases h4 : (run_command (env.run brew_formula_cmd)).succeeded <;>
                cases h5 : (run_command (env.run brew_cask_cmd)).succeeded <;>
                  simp [h1, hn, h2, hp, h3, hd, h4, h5, FS.read, FS.write]

/-- The supported tool keys and descriptions fixed in DevSync.__init__, in
insertion order. -/
def supported_tools : List (String × String) :=
  [("vscode", "Visual Studio Code Settings"),
   ("git", "Git Configuration"),
   ("ssh", "SSH Keys & Config"),
   ("npm", "NPM Global Packages"),
   ("pip", "Python Packages"),
   ("cargo", "Rust Packages"),
   ("brew", "Homebrew Packages (macOS)"),
   ("apt", "APT Packages (Ubuntu)"),
   ("dotfiles", "Shell Configuration Files"),
   ("bookmarks", "Browser Bookmarks"),
   ("fonts", "Custom Fonts")]

/-- The selection map interactive_backup builds: one yes/no prompt per
supported tool key, in order. -/
def interactive_selections (answer : String → Bool) : List (String × Bool) :=
  supported_tools.map (fun kd => (kd.1, answer kd.1))

/-- Dictionary lookup with falsy default, as selections.get(key) behaves in
a condition. -/
def selected : List (String × Bool) → String → Bool
  | [], _ => false
  | e :: rest, k => if e.1 = k then e.2 else selected rest k

/-- The collectors interactive_backup runs for a given set of answers, in
source order: vscode, git and ssh each behind their own key, the single
combined package-manager collector behind npm or pip or cargo, and
dotfiles behind its key. -/
def collectors_run (answer : String → Bool) : List String :=
  let sel := interactive_selections answer
  (if selected sel "vscode" then ["vscode"] else []) ++
  (if selected sel "git" then ["git"] else []) ++
  (if selected sel "ssh" then ["ssh"] else []) ++
  (if selected sel "npm" || selected sel "pip" || selected sel "cargo"
     then ["packages"] else []) ++
  (if selected sel "dotfiles" then ["dotfiles"] else [])

/-- C10: interactive backup prompts every one of the eleven supported tool
keys, but the answers for brew, apt, bookmarks and fonts never influence
which collectors run: two answer maps agreeing outside those four keys run
exactly the same collectors. -/
theorem C10_unused_selections (a1 a2 : String → Bool)
    (h : ∀ k, k ∉ ["brew", "apt", "bookmarks", "fonts"] → a1 k = a2 k) :
    collectors_run a1 = collectors_run a2 ∧
    (interactive_selections a1).map Prod.fst = supported_tools.map Prod.fst ∧
    supported_tools.length = 11 ∧
    (∀ k, k ∈ ["brew", "apt", "bookmarks", "fonts"] →
      k ∈ supported_tools.map Prod.fst) := by
  refine ⟨?_, by simp [interactive_selections], by rfl, by decide⟩
  have hv := h "vscode" (by decide)
  have hg := h "git" (by decide)
  have hs := h "ssh" (by decide)
  have hn := h "npm" (by decide)
  have hp := h "pip" (by decide)
  have hc := h "cargo" (by decide)
  have hdf := h "dotfiles" (by decide)
  simp [collectors_run, interactive_selections, selected, supported_tools,
    hv, hg, hs, hn, hp, hc, hdf]

/-- Answer map declining every prompt. -/
def answers_none : String → Bool := fun _ => false

/-- Answer map accepting exactly the four prompts whose answers the
orchestrator never consults. -/
def answers_unused_only : String → Bool := fun k =>
  decide (k = "brew" ∨ k = "apt" ∨ k = "bookmarks" ∨ k = "fonts")

/-- Witness for C10: declining everything and accepting only brew, apt,
bookmarks and fonts run the same (empty) collector list. -/
theorem C10_unused_selections_witness :
    collectors_run answers_none = collectors_run answers_unused_only :=
  (C10_unused_selections answers_none answers_unused_only
    (fun k hk => by
      simp only [List.mem_cons, List.not_mem_nil, or_false, not_or] at hk
      obtain ⟨h1, h2, h3, h4⟩ := hk
      simp [answers_none, answers_unused_only, h1, h2, h3, h4])).1

end DevSync
